import Mathlib

/-!
Verification of the Flickr OAuth client core (signing engine, token
exchange, response parsing) against its natural-language specification.

Go strings are byte strings; we embed them as `List Nat` with each entry
a byte value. `gs` converts an ASCII/UTF-8 Lean string literal to its
byte list, matching Go's representation of the same literal.
-/

/-- Bytes of a Go string: the UTF-8 byte sequence of the literal. -/
def gs (s : String) : List Nat := (s.data.flatMap String.utf8EncodeChar).map (fun b => b.toNat)

/-- A Go string in this embedding: its list of bytes. -/
abbrev GoStr := List Nat

/-! ## Go byte-string ordering

Go compares strings bytewise-lexicographically; `sort.Strings` uses this
order. `strLtB` is the strict order, `strLeB` its reflexive closure. -/

/-- Strict bytewise-lexicographic order on Go strings, as used by Go string comparison. -/
def strLtB : List Nat → List Nat → Bool
  | [], [] => false
  | [], _ :: _ => true
  | _ :: _, [] => false
  | a :: as, b :: bs => if a < b then true else if b < a then false else strLtB as bs

/-- Reflexive bytewise-lexicographic order on Go strings. -/
def strLeB (s t : List Nat) : Bool := !(strLtB t s)

/-! ## url.Values

Go represents query parameters as `url.Values = map[string][]string`.  We
embed the parameter multiset as a flat association list in insertion
order; the map grouping is recovered where the source needs it (`Encode`
sorts by key, stably, which groups equal keys in insertion order exactly
as iterating the sorted map keys does; `Get` takes the first value added
for a key, matching `v[key][0]`). -/

abbrev Values := List (GoStr × GoStr)

/-- url.Values.Del: remove every value stored under the key. -/
def valuesDel (v : Values) (key : GoStr) : Values := v.filter (fun p => !(p.1 == key))

/-- url.Values.Set: replace all values of the key by the single given value. -/
def valuesSet (v : Values) (key value : GoStr) : Values := valuesDel v key ++ [(key, value)]

/-- url.Values.Add: append a value for the key. -/
def valuesAdd (v : Values) (key value : GoStr) : Values := v ++ [(key, value)]

/-- url.Values.Get: first value stored under the key, or the empty string. -/
def valuesGet (v : Values) (key : GoStr) : GoStr :=
  match v.find? (fun p => p.1 == key) with
  | some p => p.2
  | none => []

/-! ## Percent escaping (net/url QueryEscape) -/

/-- Bytes Go leaves unescaped in query components: alphanumerics and `-_.~`. -/
def isUnreservedByte (b : Nat) : Bool :=
  (48 ≤ b && b ≤ 57) || (65 ≤ b && b ≤ 90) || (97 ≤ b && b ≤ 122) ||
  b == 45 || b == 95 || b == 46 || b == 126

/-- Uppercase hexadecimal digit byte, as in net/url percent escapes. -/
def hexUpperDigit (n : Nat) : Nat := if n < 10 then 48 + n else 55 + n

/-- net/url QueryEscape: keep unreserved bytes, turn space into a plus sign,
percent-escape everything else with uppercase hex. -/
def queryEscape : List Nat → List Nat
  | [] => []
  | b :: rest =>
    (if isUnreservedByte b then [b]
     else if b == 32 then [43]
     else [37, hexUpperDigit (b / 16 % 16), hexUpperDigit (b % 16)]) ++ queryEscape rest

/-- Key order used by url.Values.Encode: sort parameter pairs by raw key. -/
def keyLE (p q : GoStr × GoStr) : Prop := strLeB p.1 q.1 = true

instance : DecidableRel keyLE := fun _ _ => inferInstanceAs (Decidable (_ = true))

/-- url.Values.Encode: keys sorted, each pair rendered as
escapedKey=escapedValue, pairs joined with ampersands.  Stable sorting of
the flat pair list by key reproduces the map view: distinct keys in
sorted order, the values of one key grouped in insertion order. -/
def valuesEncode (v : Values) : GoStr :=
  List.intercalate [38]
    ((List.insertionSort keyLE v).map (fun p => queryEscape p.1 ++ [61] ++ queryEscape p.2))

/-! ## Word-level helpers for the hash functions.

Machine words are `Nat`s kept below two to the 32 by explicit reduction. -/

/-- Truncate to a 32-bit word. -/
def w32 (n : Nat) : Nat := n % 4294967296

/-- Bitwise complement on 32-bit words. -/
def not32 (n : Nat) : Nat := 4294967295 ^^^ n

/-- Rotate a 32-bit word left by s bits. -/
def rotl32 (x s : Nat) : Nat := w32 (x <<< s) ||| (x >>> (32 - s))

/-- Big-endian word from four bytes. -/
def beWord (b0 b1 b2 b3 : Nat) : Nat :=
  ((b0 % 256) <<< 24) + ((b1 % 256) <<< 16) + ((b2 % 256) <<< 8) + (b3 % 256)

/-- Little-endian word from four bytes. -/
def leWord (b0 b1 b2 b3 : Nat) : Nat :=
  ((b3 % 256) <<< 24) + ((b2 % 256) <<< 16) + ((b1 % 256) <<< 8) + (b0 % 256)

/-- Four big-endian bytes of a 32-bit word. -/
def beBytes4 (w : Nat) : List Nat := [(w >>> 24) % 256, (w >>> 16) % 256, (w >>> 8) % 256, w % 256]

/-- Four little-endian bytes of a 32-bit word. -/
def leBytes4 (w : Nat) : List Nat := [w % 256, (w >>> 8) % 256, (w >>> 16) % 256, (w >>> 24) % 256]

/-- Eight big-endian bytes of a 64-bit length. -/
def beBytes8 (n : Nat) : List Nat := beBytes4 (n >>> 32) ++ beBytes4 n

/-- Eight little-endian bytes of a 64-bit length. -/
def leBytes8 (n : Nat) : List Nat := leBytes4 n ++ leBytes4 (n >>> 32)

/-- Split into 64-byte blocks (fuel-indexed so the kernel can evaluate it;
the fuel, one unit per byte, dominates the block count). -/
def chunksAux : Nat → List Nat → List (List Nat)
  | 0, _ => []
  | _, [] => []
  | fuel + 1, l => l.take 64 :: chunksAux fuel (l.drop 64)

/-- Split a byte list into successive 64-byte blocks. -/
def chunks64 (l : List Nat) : List (List Nat) := chunksAux l.length l

/-- Big-endian 32-bit words of a block. -/
def toWordsBE : List Nat → List Nat
  | b0 :: b1 :: b2 :: b3 :: rest => beWord b0 b1 b2 b3 :: toWordsBE rest
  | _ => []

/-- Little-endian 32-bit words of a block. -/
def toWordsLE : List Nat → List Nat
  | b0 :: b1 :: b2 :: b3 :: rest => leWord b0 b1 b2 b3 :: toWordsLE rest
  | _ => []

/-! ## SHA-1 (FIPS 180, as used by crypto/sha1) -/

/-- SHA-1 round function. -/
def sha1F (i b c d : Nat) : Nat :=
  if i < 20 then (b &&& c) ||| (not32 b &&& d)
  else if i < 40 then b ^^^ c ^^^ d
  else if i < 60 then (b &&& c) ||| (b &&& d) ||| (c &&& d)
  else b ^^^ c ^^^ d

/-- SHA-1 round constants. -/
def sha1K (i : Nat) : Nat :=
  if i < 20 then 1518500249
  else if i < 40 then 1859775393
  else if i < 60 then 2400959708
  else 3395469782

/-- Extend sixteen message words to the eighty-word SHA-1 schedule. -/
def sha1Extend (w : List Nat) : List Nat :=
  (List.range 64).foldl (fun ws i =>
    ws ++ [rotl32 ((ws.getD (i + 13) 0) ^^^ (ws.getD (i + 8) 0) ^^^
                   (ws.getD (i + 2) 0) ^^^ (ws.getD i 0)) 1]) w

/-- SHA-1 compression of one 64-byte block. -/
def sha1Compress (h : Nat × Nat × Nat × Nat × Nat) (block : List Nat) :
    Nat × Nat × Nat × Nat × Nat :=
  let w := sha1Extend (toWordsBE block)
  let (h0, h1, h2, h3, h4) := h
  let (a, b, c, d, e) := (List.range 80).foldl (fun st i =>
    let (a, b, c, d, e) := st
    (w32 (rotl32 a 5 + sha1F i b c d + e + sha1K i + w.getD i 0), a, rotl32 b 30, c, d))
    (h0, h1, h2, h3, h4)
  (w32 (h0 + a), w32 (h1 + b), w32 (h2 + c), w32 (h3 + d), w32 (h4 + e))

/-- Merkle-Damgard padding: 0x80, zeros to 56 mod 64, 64-bit big-endian bit length. -/
def sha1Pad (msg : List Nat) : List Nat :=
  msg ++ [128] ++ List.replicate ((119 - msg.length % 64) % 64) 0 ++
  beBytes8 ((8 * msg.length) % 18446744073709551616)

/-- SHA-1 digest (20 bytes) of a byte string. -/
def sha1 (msg : List Nat) : List Nat :=
  let r := (chunks64 (sha1Pad msg)).foldl sha1Compress
    (1732584193, 4023233417, 2562383102, 271733878, 3285377520)
  beBytes4 r.1 ++ beBytes4 r.2.1 ++ beBytes4 r.2.2.1 ++ beBytes4 r.2.2.2.1 ++ beBytes4 r.2.2.2.2

/-! ## MD5 (RFC 1321, as used by crypto/md5) -/

/-- MD5 sine-derived additive constants. -/
def md5T : List Nat :=
  [0xd76aa478, 0xe8c7b756, 0x242070db, 0xc1bdceee,
   0xf57c0faf, 0x4787c62a, 0xa8304613, 0xfd469501,
   0x698098d8, 0x8b44f7af, 0xffff5bb1, 0x895cd7be,
   0x6b901122, 0xfd987193, 0xa679438e, 0x49b40821,
   0xf61e2562, 0xc040b340, 0x265e5a51, 0xe9b6c7aa,
   0xd62f105d, 0x02441453, 0xd8a1e681, 0xe7d3fbc8,
   0x21e1cde6, 0xc33707d6, 0xf4d50d87, 0x455a14ed,
   0xa9e3e905, 0xfcefa3f8, 0x676f02d9, 0x8d2a4c8a,
   0xfffa3942, 0x8771f681, 0x6d9d6122, 0xfde5380c,
   0xa4beea44, 0x4bdecfa9, 0xf6bb4b60, 0xbebfbc70,
   0x289b7ec6, 0xeaa127fa, 0xd4ef3085, 0x04881d05,
   0xd9d4d039, 0xe6db99e5, 0x1fa27cf8, 0xc4ac5665,
   0xf4292244, 0x432aff97, 0xab9423a7, 0xfc93a039,
   0x655b59c3, 0x8f0ccc92, 0xffeff47d, 0x85845dd1,
   0x6fa87e4f, 0xfe2ce6e0, 0xa3014314, 0x4e0811a1,
   0xf7537e82, 0xbd3af235, 0x2ad7d2bb, 0xeb86d391]

/-- MD5 per-round left-rotation amounts. -/
def md5S (i : Nat) : Nat :=
  if i < 16 then [7, 12, 17, 22].getD (i % 4) 0
  else if i < 32 then [5, 9, 14, 20].getD (i % 4) 0
  else if i < 48 then [4, 11, 16, 23].getD (i % 4) 0
  else [6, 10, 15, 21].getD (i % 4) 0

/-- MD5 message-word index per round. -/
def md5G (i : Nat) : Nat :=
  if i < 16 then i
  else if i < 32 then (5 * i + 1) % 16
  else if i < 48 then (3 * i + 5) % 16
  else (7 * i) % 16

/-- MD5 round function. -/
def md5F (i b c d : Nat) : Nat :=
  if i < 16 then (b &&& c) ||| (not32 b &&& d)
  else if i < 32 then (d &&& b) ||| (not32 d &&& c)
  else if i < 48 then b ^^^ c ^^^ d
  else c ^^^ (b ||| not32 d)

/-- MD5 compression of one 64-byte block. -/
def md5Compress (h : Nat × Nat × Nat × Nat) (block : List Nat) : Nat × Nat × Nat × Nat :=
  let m := toWordsLE block
  let (a0, b0, c0, d0) := h
  let (a, b, c, d) := (List.range 64).foldl (fun st i =>
    let (a, b, c, d) := st
    let f := w32 (md5F i b c d + a + md5T.getD i 0 + m.getD (md5G i) 0)
    (d, w32 (b + rotl32 f (md5S i)), b, c)) (a0, b0, c0, d0)
  (w32 (a0 + a), w32 (b0 + b), w32 (c0 + c), w32 (d0 + d))

/-- MD5 padding: as SHA-1 but the bit length is little-endian. -/
def md5Pad (msg : List Nat) : List Nat :=
  msg ++ [128] ++ List.replicate ((119 - msg.length % 64) % 64) 0 ++
  leBytes8 ((8 * msg.length) % 18446744073709551616)

/-- MD5 digest (16 bytes) of a byte string. -/
def md5 (msg : List Nat) : List Nat :=
  let r := (chunks64 (md5Pad msg)).foldl md5Compress (1732584193, 4023233417, 2562383102, 271733878)
  leBytes4 r.1 ++ leBytes4 r.2.1 ++ leBytes4 r.2.2.1 ++ leBytes4 r.2.2.2

/-! ## HMAC (crypto/hmac), standard base64, lowercase hex -/

/-- crypto/hmac with a 64-byte block: hash long keys, zero-pad, inner pad
0x36 and outer pad 0x5c. -/
def hmacGo (hash : List Nat → List Nat) (key msg : List Nat) : List Nat :=
  let k0 := if 64 < key.length then hash key else key
  let k := k0 ++ List.replicate (64 - k0.length) 0
  hash ((k.map (fun b => b ^^^ 92)) ++ hash ((k.map (fun b => b ^^^ 54)) ++ msg))

/-- The standard base64 alphabet. -/
def b64Alphabet : List Nat := gs "ABCDEFGHIJKLMNOPQRSTUVWXYZabcdefghijklmnopqrstuvwxyz0123456789+/"

/-- Character of a six-bit group under the standard base64 alphabet. -/
def b64c (n : Nat) : Nat := b64Alphabet.getD n 0

/-- base64.StdEncoding.EncodeToString over bytes, with padding. -/
def base64Encode : List Nat → List Nat
  | [] => []
  | [b0] => [b64c ((b0 % 256) >>> 2), b64c ((b0 % 4) <<< 4), 61, 61]
  | [b0, b1] => [b64c ((b0 % 256) >>> 2), b64c (((b0 % 4) <<< 4) ||| ((b1 % 256) >>> 4)),
                 b64c ((b1 % 16) <<< 2), 61]
  | b0 :: b1 :: b2 :: rest =>
    [b64c ((b0 % 256) >>> 2), b64c (((b0 % 4) <<< 4) ||| ((b1 % 256) >>> 4)),
     b64c (((b1 % 16) <<< 2) ||| ((b2 % 256) >>> 6)), b64c (b2 % 64)] ++ base64Encode rest

/-- Lowercase hexadecimal digit byte. -/
def hexLowerDigit (n : Nat) : Nat := if n < 10 then 48 + n else 87 + n

/-- Lowercase hex rendering of a byte string, as Go formatting of a digest. -/
def hexLower : List Nat → List Nat
  | [] => []
  | b :: rest => hexLowerDigit (b % 256 / 16) :: hexLowerDigit (b % 16) :: hexLower rest

/-! ## The FlickrClient request context

The `HTTPClient` field of the Go struct is the outside transport
collaborator and carries no signing state, so it is not part of the
embedded record. -/

def API_ENDPOINT : GoStr := gs "https://api.flickr.com/services/rest"

def AUTHORIZE_URL : GoStr := gs "https://www.flickr.com/services/oauth/authorize"

def REQUEST_TOKEN_URL : GoStr := gs "https://www.flickr.com/services/oauth/request_token"

def ACCESS_TOKEN_URL : GoStr := gs "https://www.flickr.com/services/oauth/access_token"

structure FlickrClient where
  ApiKey : GoStr
  ApiSecret : GoStr
  EndpointUrl : GoStr
  HTTPVerb : GoStr
  Args : Values
  OAuthToken : GoStr
  OAuthTokenSecret : GoStr
deriving DecidableEq, Repr

/-- NewFlickrClient: fresh client with GET verb and empty parameter set;
the remaining string fields start as Go zero values. -/
def NewFlickrClient (apiKey apiSecret : GoStr) : FlickrClient :=
  { ApiKey := apiKey, ApiSecret := apiSecret, EndpointUrl := [], HTTPVerb := gs "GET",
    Args := [], OAuthToken := [], OAuthTokenSecret := [] }

/-- getSigningBaseString: VERB, escaped endpoint URL and escaped encoded
parameters joined with ampersands. -/
def FlickrClient.getSigningBaseString (c : FlickrClient) : GoStr :=
  c.HTTPVerb ++ [38] ++ queryEscape c.EndpointUrl ++ [38] ++ queryEscape (valuesEncode c.Args)

/-- getSignature: base64 of HMAC-SHA1 over the base string, keyed by
escaped app secret, ampersand, escaped token secret. -/
def FlickrClient.getSignature (c : FlickrClient) (token_secret : GoStr) : GoStr :=
  let key := queryEscape c.ApiSecret ++ [38] ++ queryEscape token_secret
  base64Encode (hmacGo sha1 key c.getSigningBaseString)

/-- Sign: delete any oauth_signature parameter, then store the fresh
signature (computed over the deleted state) under oauth_signature. -/
def FlickrClient.Sign (c : FlickrClient) (tokenSecret : GoStr) : FlickrClient :=
  let c1 := { c with Args := valuesDel c.Args (gs "oauth_signature") }
  { c1 with Args := valuesSet c1.Args (gs "oauth_signature") (c1.getSignature tokenSecret) }

/-- Sorted-set order for the api-signature key walk (sort.Strings). -/
def strLE (s t : GoStr) : Prop := strLeB s t = true

instance : DecidableRel strLE := fun _ _ => inferInstanceAs (Decidable (_ = true))

/-- getApiSignature: md5 of token secret followed by key-value pairs in
ascending key order, each key taking its first stored value, rendered as
lowercase hex. -/
def FlickrClient.getApiSignature (c : FlickrClient) (token_secret : GoStr) : GoStr :=
  let keys := List.insertionSort strLE (c.Args.map Prod.fst).dedup
  hexLower (md5 (token_secret ++ keys.foldl (fun acc k => acc ++ k ++ valuesGet c.Args k) []))

/-- ApiSign: delete any api_sig parameter, then store the fresh api
signature (computed over the deleted state) under api_sig. -/
def FlickrClient.ApiSign (c : FlickrClient) (tokenSecret : GoStr) : FlickrClient :=
  let c1 := { c with Args := valuesDel c.Args (gs "api_sig") }
  { c1 with Args := valuesSet c1.Args (gs "api_sig") (c1.getApiSignature tokenSecret) }

/-- GetUrl: endpoint, question mark, encoded parameters. -/
def FlickrClient.GetUrl (c : FlickrClient) : GoStr :=
  c.EndpointUrl ++ [63] ++ valuesEncode c.Args

/-- ClearArgs: drop all query parameters. -/
def FlickrClient.ClearArgs (c : FlickrClient) : FlickrClient := { c with Args := [] }

/-- SetDefaultArgs: reset the parameter set and seed the four default
OAuth parameters.  The fresh nonce and the current Unix timestamp are
produced by the environment (generateNonce, time.Now), so they enter the
model as arguments. -/
def FlickrClient.SetDefaultArgs (c : FlickrClient) (nonce timestamp : GoStr) : FlickrClient :=
  let a := valuesAdd [] (gs "oauth_version") (gs "1.0")
  let a := valuesAdd a (gs "oauth_signature_method") (gs "HMAC-SHA1")
  let a := valuesAdd a (gs "oauth_nonce") nonce
  let a := valuesAdd a (gs "oauth_timestamp") timestamp
  { c with Args := a }

/-! ## Nonce generator -/

/-- The curated nonce alphabet from generateNonce. -/
def nonceLetters : GoStr := gs "123456789abcdefghijkmnopqrstuvwxyzABCDEFGHJKLMNPQRSTUVWXYZ"

/-- generateNonce: eight characters drawn from the alphabet.  Each call
to rand.Intn yields an index below the alphabet length; the sampled
indices enter the model as an argument. -/
def generateNonce (samples : Fin 8 → Fin nonceLetters.length) : GoStr :=
  (List.finRange 8).map (fun i => nonceLetters.get (samples i))

/-! ## Response envelope -/

structure FlickrRspError where
  Code : Int
  Message : GoStr
deriving DecidableEq, Repr

structure FlickrResponse where
  Status : GoStr
  Error : FlickrRspError
deriving DecidableEq, Repr

/-- HasErrors: the status attribute equals the literal fail. -/
def FlickrResponse.HasErrors (r : FlickrResponse) : Bool := r.Status == gs "fail"

/-- ErrorCode: the nested error code. -/
def FlickrResponse.ErrorCode (r : FlickrResponse) : Int := r.Error.Code

/-- ErrorMsg: the nested error message. -/
def FlickrResponse.ErrorMsg (r : FlickrResponse) : GoStr := r.Error.Message

/-! ## Response-body parsing (strings.TrimSpace, url.ParseQuery) -/

/-- The ASCII whitespace bytes strings.TrimSpace strips. -/
def isGoSpace (b : Nat) : Bool := b == 32 || b == 9 || b == 10 || b == 11 || b == 12 || b == 13

/-- strings.TrimSpace on ASCII input. -/
def trimSpace (s : GoStr) : GoStr := ((s.dropWhile isGoSpace).reverse.dropWhile isGoSpace).reverse

/-- Split on a separator byte, keeping empty components. -/
def splitOnByte (sep : Nat) : List Nat → List (List Nat)
  | [] => [[]]
  | c :: rest =>
    match splitOnByte sep rest with
    | [] => [[]]
    | g :: groups => if c == sep then [] :: g :: groups else (c :: g) :: groups

/-- strings.Cut at the first separator byte; an absent separator leaves
the remainder empty. -/
def cutByte (sep : Nat) : List Nat → List Nat × List Nat
  | [] => ([], [])
  | c :: rest =>
    if c == sep then ([], rest)
    else
      let r := cutByte sep rest
      (c :: r.1, r.2)

/-- Value of a hexadecimal digit byte, if it is one. -/
def hexVal (b : Nat) : Option Nat :=
  if 48 ≤ b && b ≤ 57 then some (b - 48)
  else if 97 ≤ b && b ≤ 102 then some (b - 87)
  else if 65 ≤ b && b ≤ 70 then some (b - 55)
  else none

/-- net/url unescaping in query mode: percent escapes decode to their
byte, plus decodes to space, a malformed percent escape is an error. -/
def queryUnescape : List Nat → Option (List Nat)
  | [] => some []
  | 37 :: h1 :: h2 :: rest =>
    match hexVal h1, hexVal h2, queryUnescape rest with
    | some v1, some v2, some r => some ((16 * v1 + v2) :: r)
    | _, _, _ => none
  | 37 :: _ => none
  | 43 :: rest => (queryUnescape rest).map (fun r => 32 :: r)
  | c :: rest => (queryUnescape rest).map (fun r => c :: r)

/-- url.ParseQuery: split the query on ampersands; skip empty components;
a semicolon in a component or an unescapable key or value is an error;
otherwise cut each component at its first equals sign and append the
unescaped pair.  Go returns theincomplete map next to the first
error, but both callers in this code drop the map whenever the error is
set, so the model folds the two results into one. -/
def parseQuery (s : GoStr) : Except Unit Values :=
  (splitOnByte 38 s).foldl (fun acc comp =>
    match acc with
    | .error e => .error e
    | .ok vals =>
      if comp.contains 59 then .error ()
      else if comp = [] then .ok vals
      else
        let kv := cutByte 61 comp
        match queryUnescape kv.1, queryUnescape kv.2 with
        | some k, some v => .ok (vals ++ [(k, v)])
        | _, _ => .error ()) (.ok [])

/-- strconv.ParseBool as used with a discarded error: the recognized true
spellings parse to true, everything else (including the recognized false
spellings, the empty string and garbage) leaves the zero value false. -/
def parseBoolDefaultFalse (s : GoStr) : Bool :=
  s == gs "1" || s == gs "t" || s == gs "T" || s == gs "true" || s == gs "TRUE" || s == gs "True"

/-- Modelled from the spec: the step-specific error values.  The code
builds them with flickErr.NewError from the error package of this
repository, which is not under src; the spec says an OAuth rejection is
surfaced as a distinct, step-specific error code and a malformed body as
a parse error, so an error here is either a parse failure or a Flickr
error carrying its numeric code. -/
inductive GoError where
  | parse : GoError
  | flickr : Nat → GoError
deriving DecidableEq, Repr

structure RequestToken where
  OauthCallbackConfirmed : Bool
  OauthToken : GoStr
  OauthTokenSecret : GoStr
  OAuthProblem : GoStr
deriving DecidableEq, Repr

/-- ParseRequestToken: trim the body, parse it as a query string (a parse
failure returns no token), fail with error code 20 and only the problem
field populated when oauth_problem is nonempty, otherwise populate the
token fields. -/
def ParseRequestToken (response : GoStr) : Option RequestToken × Option GoError :=
  match parseQuery (trimSpace response) with
  | .error _ => (none, some .parse)
  | .ok val =>
    let oauth_problem := valuesGet val (gs "oauth_problem")
    if oauth_problem ≠ [] then
      (some { OauthCallbackConfirmed := false, OauthToken := [], OauthTokenSecret := [],
              OAuthProblem := oauth_problem }, some (.flickr 20))
    else
      (some { OauthCallbackConfirmed := parseBoolDefaultFalse (valuesGet val (gs "oauth_callback_confirmed")),
              OauthToken := valuesGet val (gs "oauth_token"),
              OauthTokenSecret := valuesGet val (gs "oauth_token_secret"),
              OAuthProblem := [] }, none)

structure OAuthToken where
  OAuthToken : GoStr
  OAuthTokenSecret : GoStr
  UserNsid : GoStr
  Username : GoStr
  Fullname : GoStr
  OAuthProblem : GoStr
deriving DecidableEq, Repr

/-- ParseOAuthToken: like ParseRequestToken but with error code 30 and
the owner fields fullname, user_nsid and username. -/
def ParseOAuthToken (response : GoStr) : Option OAuthToken × Option GoError :=
  match parseQuery (trimSpace response) with
  | .error _ => (none, some .parse)
  | .ok val =>
    let oauth_problem := valuesGet val (gs "oauth_problem")
    if oauth_problem ≠ [] then
      (some { OAuthToken := [], OAuthTokenSecret := [], UserNsid := [], Username := [],
              Fullname := [], OAuthProblem := oauth_problem }, some (.flickr 30))
    else
      (some { OAuthToken := valuesGet val (gs "oauth_token"),
              OAuthTokenSecret := valuesGet val (gs "oauth_token_secret"),
              Fullname := valuesGet val (gs "fullname"),
              UserNsid := valuesGet val (gs "user_nsid"),
              Username := valuesGet val (gs "username"),
              OAuthProblem := [] }, none)

/-! ## Token exchange

GetRequestToken and GetAccessToken interleave pure state preparation
with one HTTP GET through the outside transport; the model captures the
prepared, signed client each hands to the transport. -/

/-- GetRequestToken up to the HTTP call: request-token endpoint, default
parameters, consumer key, out-of-band callback, signed with the empty
token secret. -/
def GetRequestTokenPrep (client : FlickrClient) (nonce timestamp : GoStr) : FlickrClient :=
  let c := { client with EndpointUrl := REQUEST_TOKEN_URL }
  let c := c.SetDefaultArgs nonce timestamp
  let c := { c with Args := valuesSet c.Args (gs "oauth_consumer_key") c.ApiKey }
  let c := { c with Args := valuesSet c.Args (gs "oauth_callback") (gs "oob") }
  c.Sign []

/-- GetAuthorizeUrl: authorize endpoint, parameters reset to the request
token and the hardcoded delete permission; returns the built URL and a
nil error, with no use of the transport. -/
def GetAuthorizeUrl (client : FlickrClient) (reqToken : RequestToken) :
    FlickrClient × GoStr × Option GoError :=
  let c := { client with EndpointUrl := AUTHORIZE_URL }
  let c := { c with Args := ([] : Values) }
  let c := { c with Args := valuesSet c.Args (gs "oauth_token") reqToken.OauthToken }
  let c := { c with Args := valuesSet c.Args (gs "perms") (gs "delete") }
  (c, c.GetUrl, none)

/-- GetAccessToken up to the HTTP call: access-token endpoint, default
parameters, verifier, consumer key, request token, signed with the
request token secret. -/
def GetAccessTokenPrep (client : FlickrClient) (reqToken : RequestToken)
    (oauthVerifier : GoStr) (nonce timestamp : GoStr) : FlickrClient :=
  let c := { client with EndpointUrl := ACCESS_TOKEN_URL }
  let c := c.SetDefaultArgs nonce timestamp
  let c := { c with Args := valuesSet c.Args (gs "oauth_verifier") oauthVerifier }
  let c := { c with Args := valuesSet c.Args (gs "oauth_consumer_key") c.ApiKey }
  let c := { c with Args := valuesSet c.Args (gs "oauth_token") reqToken.OauthToken }
  c.Sign reqToken.OauthTokenSecret

/-! ## groups package -/

structure ThrottleInfo where
  Text : GoStr
  Count : GoStr
  Mode : GoStr
  Remaining : GoStr
deriving DecidableEq, Repr

structure RestrictionsInfo where
  Text : GoStr
  PhotosOk : GoStr
  VideosOk : GoStr
  ImagesOk : GoStr
  ScreensOk : GoStr
  ArtOk : GoStr
  VirtualOk : GoStr
  SafeOk : GoStr
  ModerateOk : GoStr
  RestrictedOk : GoStr
  HasGeo : GoStr
deriving DecidableEq, Repr

structure GroupInfoGroup where
  ID : GoStr
  Throttle : ThrottleInfo
  Restriction : RestrictionsInfo
deriving DecidableEq, Repr

/-- The groups getInfo response.  The Go struct also embeds the core
library BasicResponse envelope (that library is outside src; the spec
describes it as the generic Response Envelope), which CanAddPhotos never
reads; it is carried here as the envelope model. -/
structure GroupInfoResponse where
  Basic : FlickrResponse
  Group : GroupInfoGroup
deriving DecidableEq, Repr

/-- strconv.Atoi: optional sign, at least one decimal digit and nothing
else, result within the 64-bit int range; anything else is an error. -/
def Atoi (s : GoStr) : Option Int :=
  let signAndDigits : Bool × List Nat :=
    match s with
    | 43 :: rest => (false, rest)
    | 45 :: rest => (true, rest)
    | _ => (false, s)
  match signAndDigits.2 with
  | [] => none
  | ds =>
    match ds.foldl (fun acc d =>
      match acc with
      | none => none
      | some v => if 48 ≤ d && d ≤ 57 then some (v * 10 + (d - 48)) else none) (some 0) with
    | none => none
    | some v =>
      if signAndDigits.1 then
        if v ≤ 9223372036854775808 then some (-(v : Int)) else none
      else
        if v ≤ 9223372036854775807 then some (v : Int) else none

/-- CanAddPhotos: true exactly when the throttle Remaining attribute
parses as an integer greater than zero. -/
def GroupInfoResponse.CanAddPhotos (group : GroupInfoResponse) : Bool :=
  match Atoi group.Group.Throttle.Remaining with
  | some val => if 0 < val then true else false
  | none => false

/-! ## Order lemmas for the bytewise-lexicographic comparison -/

theorem strLtB_irrefl (a : GoStr) : strLtB a a = false := by
  induction a with
  | nil => rfl
  | cons x xs ih => simp [strLtB, ih]

theorem strLtB_asymm {a b : GoStr} (h : strLtB a b = true) : strLtB b a = false := by
  induction a generalizing b with
  | nil =>
    cases b with
    | nil => simp [strLtB] at h
    | cons y ys => simp [strLtB]
  | cons x xs ih =>
    cases b with
    | nil => simp [strLtB] at h
    | cons y ys =>
      by_cases hxy : x < y
      · simp [strLtB, hxy, Nat.lt_asymm hxy]
      · by_cases hyx : y < x
        · simp [strLtB, hxy, hyx] at h
        · simp [strLtB, hxy, hyx] at h ⊢
          exact ih h

theorem strLtB_trans {a b c : GoStr} (h1 : strLtB a b = true) (h2 : strLtB b c = true) :
    strLtB a c = true := by
  induction a generalizing b c with
  | nil =>
    cases b with
    | nil => simp [strLtB] at h1
    | cons y ys =>
      cases c with
      | nil => simp [strLtB] at h2
      | cons z zs => simp [strLtB]
  | cons x xs ih =>
    cases b with
    | nil => simp [strLtB] at h1
    | cons y ys =>
      cases c with
      | nil => simp [strLtB] at h2
      | cons z zs =>
        by_cases hxy : x < y
        · by_cases hyz : y < z
          · simp [strLtB, Nat.lt_trans hxy hyz]
          · by_cases hzy : z < y
            · simp [strLtB, hyz, hzy] at h2
            · have hyzeq : y = z := by omega
              subst hyzeq
              simp [strLtB, hxy]
        · by_cases hyx : y < x
          · simp [strLtB, hxy, hyx] at h1
          · have hxyeq : x = y := by omega
            subst hxyeq
            by_cases hyz : x < z
            · simp [strLtB, hyz]
            · by_cases hzy : z < x
              · simp [strLtB, hyz, hzy] at h2
              · have hyzeq : x = z := by omega
                subst hyzeq
                simp [strLtB, hxy] at h1 h2 ⊢
                exact ih h1 h2

theorem strLtB_connex {a b : GoStr} (h1 : strLtB a b = false) (h2 : strLtB b a = false) :
    a = b := by
  induction a generalizing b with
  | nil =>
    cases b with
    | nil => rfl
    | cons y ys => simp [strLtB] at h1
  | cons x xs ih =>
    cases b with
    | nil => simp [strLtB] at h2
    | cons y ys =>
      by_cases hxy : x < y
      · simp [strLtB, hxy] at h1
      · by_cases hyx : y < x
        · simp [strLtB, hxy, hyx] at h2
        · have hxyeq : x = y := by omega
          subst hxyeq
          simp [strLtB, hxy] at h1 h2
          exact congrArg (List.cons x) (ih h1 h2)

theorem strLeB_iff {a b : GoStr} : strLeB a b = true ↔ strLtB b a = false := by
  simp [strLeB]

instance : IsTotal GoStr strLE where
  total a b := by
    by_cases h : strLtB b a = true
    · exact Or.inr (strLeB_iff.mpr (strLtB_asymm h))
    · exact Or.inl (strLeB_iff.mpr (Bool.not_eq_true _ ▸ h))

instance : IsTrans GoStr strLE where
  trans a b c hab hbc := by
    have hab2 : strLtB b a = false := strLeB_iff.mp hab
    have hbc2 : strLtB c b = false := strLeB_iff.mp hbc
    refine strLeB_iff.mpr ?_
    by_cases h : strLtB c a = true
    · by_cases hbc3 : strLtB b c = true
      · have hba : strLtB b a = true := strLtB_trans hbc3 h
        rw [hba] at hab2
        cases hab2
      · have heq : b = c := strLtB_connex (Bool.not_eq_true _ ▸ hbc3) hbc2
        subst heq
        rw [h] at hab2
        cases hab2
    · exact Bool.not_eq_true _ ▸ h

instance : IsAntisymm GoStr strLE where
  antisymm a b hab hba := strLtB_connex (strLeB_iff.mp hba) (strLeB_iff.mp hab)

/-! ## Parameter-set lemmas -/

theorem filter_idem {α : Type} (p : α → Bool) (l : List α) :
    (l.filter p).filter p = l.filter p := by
  induction l with
  | nil => rfl
  | cons a t ih =>
    by_cases h : p a
    · simp [List.filter_cons, h, ih]
    · simp [List.filter_cons, h, ih]

theorem valuesDel_idem (v : Values) (k : GoStr) :
    valuesDel (valuesDel v k) k = valuesDel v k := filter_idem _ v

theorem valuesDel_valuesSet_same (v : Values) (k x : GoStr) :
    valuesDel (valuesSet v k x) k = valuesDel v k := by
  simp [valuesSet, valuesDel, List.filter_append, filter_idem]

theorem valuesSet_valuesDel (v : Values) (k x : GoStr) :
    valuesSet (valuesDel v k) k x = valuesSet v k x := by
  simp [valuesSet, valuesDel_idem]

theorem valuesGet_perm {v1 v2 : Values} (hp : v1.Perm v2)
    (hnd : (v1.map Prod.fst).Nodup) (k : GoStr) : valuesGet v1 k = valuesGet v2 k := by
  unfold valuesGet
  cases hfind : v1.find? (fun p => p.1 == k) with
  | none =>
    have h1 : ∀ x ∈ v1, ¬((x.1 == k) = true) := by
      have := List.find?_eq_none.mp hfind
      simpa using this
    have h2 : v2.find? (fun p => p.1 == k) = none :=
      List.find?_eq_none.mpr (fun x hx => h1 x (hp.mem_iff.mpr hx))
    rw [h2]
  | some p =>
    have hpk : (p.1 == k) = true := by
      have := List.find?_some hfind
      simpa using this
    have hpmem : p ∈ v1 := List.mem_of_find?_eq_some hfind
    have hsome : (v2.find? (fun q => q.1 == k)).isSome :=
      List.find?_isSome.mpr ⟨p, hp.mem_iff.mp hpmem, hpk⟩
    cases hfind2 : v2.find? (fun q => q.1 == k) with
    | none =>
      rw [hfind2] at hsome
      cases hsome
    | some q =>
      have hqk : (q.1 == k) = true := by
        have := List.find?_some hfind2
        simpa using this
      have hqmem : q ∈ v1 := hp.mem_iff.mpr (List.mem_of_find?_eq_some hfind2)
      have hpq : p = q :=
        List.inj_on_of_nodup_map hnd hpmem hqmem (by
          have e1 : p.1 = k := by simpa using hpk
          have e2 : q.1 = k := by simpa using hqk
          rw [e1, e2])
      rw [hpq]

/-! ## Sort congruence: two comparators that agree on the distinct elements
of a duplicate-free list sort it identically. -/

theorem orderedInsert_congr {α : Type} (r1 r2 : α → α → Prop)
    [DecidableRel r1] [DecidableRel r2] (x : α) (l : List α)
    (h : ∀ y ∈ l, (r1 x y ↔ r2 x y)) :
    List.orderedInsert r1 x l = List.orderedInsert r2 x l := by
  induction l with
  | nil => rfl
  | cons y ys ih =>
    have hy := h y (List.mem_cons_self y ys)
    simp only [List.orderedInsert]
    by_cases hr : r1 x y
    · rw [if_pos hr, if_pos (hy.mp hr)]
    · rw [if_neg hr, if_neg (fun h2 => hr (hy.mpr h2)),
        ih (fun z hz => h z (List.mem_cons_of_mem y hz))]

theorem insertionSort_congr {α : Type} (r1 r2 : α → α → Prop)
    [DecidableRel r1] [DecidableRel r2] (l : List α) (hnd : l.Nodup)
    (h : ∀ x ∈ l, ∀ y ∈ l, x ≠ y → (r1 x y ↔ r2 x y)) :
    List.insertionSort r1 l = List.insertionSort r2 l := by
  induction l with
  | nil => rfl
  | cons x xs ih =>
    have hx : x ∉ xs := (List.nodup_cons.mp hnd).1
    have hnd2 : xs.Nodup := (List.nodup_cons.mp hnd).2
    simp only [List.insertionSort]
    rw [ih hnd2 (fun a ha b hb hab =>
      h a (List.mem_cons_of_mem x ha) b (List.mem_cons_of_mem x hb) hab)]
    refine orderedInsert_congr r1 r2 x _ (fun y hy => ?_)
    have hyxs : y ∈ xs := (List.perm_insertionSort r2 xs).mem_iff.mp hy
    exact h x (List.mem_cons_self x xs) y (List.mem_cons_of_mem x hyxs)
      (fun he => hx (he ▸ hyxs))

/-! ## Code canonical query string versus the spec clause -/

/-- The spec clause for the canonical query string, stated independently
of the code path: all current parameters sorted by key with ties broken
by value. -/
def kvLE (p q : GoStr × GoStr) : Prop :=
  (strLtB p.1 q.1 || (p.1 == q.1 && strLeB p.2 q.2)) = true

instance : DecidableRel kvLE := fun _ _ => inferInstanceAs (Decidable (_ = true))

/-- The canonical query string exactly as the spec words it: the
form-encoding of all current parameters sorted by key, ties broken by
value, joined with ampersands. -/
def specCanonicalQuery (v : Values) : GoStr :=
  List.intercalate [38]
    ((List.insertionSort kvLE v).map (fun p => queryEscape p.1 ++ [61] ++ queryEscape p.2))

theorem keyLE_iff_kvLE {p q : GoStr × GoStr} (h : p.1 ≠ q.1) : keyLE p q ↔ kvLE p q := by
  unfold keyLE kvLE
  have hbeq : (p.1 == q.1) = false := by simpa using h
  rw [hbeq]
  simp only [Bool.false_and, Bool.or_false]
  constructor
  · intro hle
    have h2 : strLtB q.1 p.1 = false := strLeB_iff.mp hle
    by_cases h3 : strLtB p.1 q.1 = true
    · exact h3
    · exact absurd (strLtB_connex (Bool.not_eq_true _ ▸ h3) h2) h
  · intro hlt
    exact strLeB_iff.mpr (strLtB_asymm hlt)

/-- On a parameter set with pairwise-distinct keys (the invariant of the
request context) the code encoding coincides with the spec canonical
query string: key ties never arise, so the stable key sort and the
key-then-value sort produce the same order. -/
theorem valuesEncode_eq_spec {v : Values} (hnd : (v.map Prod.fst).Nodup) :
    valuesEncode v = specCanonicalQuery v := by
  unfold valuesEncode specCanonicalQuery
  rw [insertionSort_congr keyLE kvLE v (List.Nodup.of_map _ hnd)
    (fun x hx y hy hxy => keyLE_iff_kvLE
      (fun he => hxy (List.inj_on_of_nodup_map hnd hx hy he)))]

/-! ## Claims about the signing engine -/

/-- Claim C1: for every client state and token secret, Sign stores under
oauth_signature the standard-base64 HMAC-SHA1 of the base string
VERB, ampersand, urlEncode(endpoint), ampersand, urlEncode(canonical
query string), keyed by urlEncode(appSecret), ampersand,
urlEncode(tokenSecret); the canonical query string is all current
parameters sorted by key with ties broken by value, form-encoded; the
oauth_signature parameter itself is absent while the base string is
computed.  The parameter set carries one value per key, the documented
request-context invariant, stated as the key list having no duplicates. -/
theorem C1_sign_stores_oauth_signature (c : FlickrClient) (ts : GoStr)
    (hnd : (c.Args.map Prod.fst).Nodup) :
    (c.Sign ts).Args = valuesSet c.Args (gs "oauth_signature")
      (base64Encode (hmacGo sha1
        (queryEscape c.ApiSecret ++ [38] ++ queryEscape ts)
        (c.HTTPVerb ++ [38] ++ queryEscape c.EndpointUrl ++ [38] ++
          queryEscape (specCanonicalQuery (valuesDel c.Args (gs "oauth_signature")))))) := by
  have hd : ((valuesDel c.Args (gs "oauth_signature")).map Prod.fst).Nodup :=
    ((List.filter_sublist _).map _).nodup hnd
  show valuesSet (valuesDel c.Args (gs "oauth_signature")) (gs "oauth_signature")
      (base64Encode (hmacGo sha1
        (queryEscape c.ApiSecret ++ [38] ++ queryEscape ts)
        (c.HTTPVerb ++ [38] ++ queryEscape c.EndpointUrl ++ [38] ++
          queryEscape (valuesEncode (valuesDel c.Args (gs "oauth_signature")))))) = _
  rw [valuesSet_valuesDel, valuesEncode_eq_spec hd]

theorem C1_witness :
    (((NewFlickrClient (gs "key") (gs "secret")).Args.map Prod.fst).Nodup) ∧
    ((NewFlickrClient (gs "key") (gs "secret")).Sign (gs "tok")).Args =
      valuesSet (NewFlickrClient (gs "key") (gs "secret")).Args (gs "oauth_signature")
        (base64Encode (hmacGo sha1
          (queryEscape (NewFlickrClient (gs "key") (gs "secret")).ApiSecret ++ [38] ++
            queryEscape (gs "tok"))
          ((NewFlickrClient (gs "key") (gs "secret")).HTTPVerb ++ [38] ++
            queryEscape (NewFlickrClient (gs "key") (gs "secret")).EndpointUrl ++ [38] ++
            queryEscape (specCanonicalQuery
              (valuesDel (NewFlickrClient (gs "key") (gs "secret")).Args
                (gs "oauth_signature")))))) :=
  ⟨by decide, C1_sign_stores_oauth_signature _ _ (by decide)⟩

/-- The two insertion orders of the spec example: b then a, and a then b. -/
def exampleArgsBA : Values := [(gs "b", gs "2"), (gs "a", gs "1")]

def exampleArgsAB : Values := [(gs "a", gs "1"), (gs "b", gs "2")]

/-- Claim C2: ApiSign stores under api_sig the lowercase-hex MD5 of the
token secret followed by each parameter key and value, keys in ascending
alphabetical order with no separators; and the digest is insensitive to
insertion order: a client whose parameter list is any permutation of the
first one (one value per key) produces the same api signature. -/
theorem C2_api_sig_alphabetical (c c2 : FlickrClient) (ts : GoStr)
    (hperm : c.Args.Perm c2.Args) (hnd : (c.Args.map Prod.fst).Nodup) :
    ((c.ApiSign ts).Args = valuesSet c.Args (gs "api_sig")
      (hexLower (md5 (ts ++
        (List.insertionSort strLE ((valuesDel c.Args (gs "api_sig")).map Prod.fst).dedup).foldl
          (fun acc k => acc ++ k ++ valuesGet (valuesDel c.Args (gs "api_sig")) k) []))))
    ∧ c.getApiSignature ts = c2.getApiSignature ts := by
  constructor
  · show valuesSet (valuesDel c.Args (gs "api_sig")) (gs "api_sig")
      (FlickrClient.getApiSignature { c with Args := valuesDel c.Args (gs "api_sig") } ts) = _
    rw [valuesSet_valuesDel]
    rfl
  · have hnd2 : (c2.Args.map Prod.fst).Nodup := ((hperm.map Prod.fst).nodup_iff).mp hnd
    have hkeys : List.insertionSort strLE (c.Args.map Prod.fst).dedup =
        List.insertionSort strLE (c2.Args.map Prod.fst).dedup :=
      List.eq_of_perm_of_sorted
        ((List.perm_insertionSort _ _).trans (((hperm.map Prod.fst).dedup).trans
          (List.perm_insertionSort _ _).symm))
        (List.sorted_insertionSort _ _) (List.sorted_insertionSort _ _)
    have hget : (fun (acc k : GoStr) => acc ++ k ++ valuesGet c.Args k) =
        (fun acc k => acc ++ k ++ valuesGet c2.Args k) := by
      funext acc k
      rw [valuesGet_perm hperm hnd k]
    simp only [FlickrClient.getApiSignature]
    rw [hkeys, hget]

/-- The spec example clients, identical except for parameter insertion order. -/
def exampleClientBA : FlickrClient :=
  { NewFlickrClient (gs "k") (gs "s") with Args := exampleArgsBA }

def exampleClientAB : FlickrClient :=
  { NewFlickrClient (gs "k") (gs "s") with Args := exampleArgsAB }

theorem C2_witness :
    (exampleClientBA.Args.Perm exampleClientAB.Args ∧
      (exampleClientBA.Args.map Prod.fst).Nodup) ∧
    ((exampleClientBA.ApiSign (gs "ts")).Args = valuesSet exampleClientBA.Args (gs "api_sig")
      (hexLower (md5 ((gs "ts") ++
        (List.insertionSort strLE
            ((valuesDel exampleClientBA.Args (gs "api_sig")).map Prod.fst).dedup).foldl
          (fun acc k => acc ++ k ++ valuesGet (valuesDel exampleClientBA.Args (gs "api_sig")) k)
          []))))
    ∧ exampleClientBA.getApiSignature (gs "ts") = exampleClientAB.getApiSignature (gs "ts") :=
  ⟨⟨List.Perm.swap _ _ _, by decide⟩,
    C2_api_sig_alphabetical exampleClientBA exampleClientAB (gs "ts")
      (List.Perm.swap _ _ _) (by decide)⟩

/-- Claim C3: signing twice in a row with the same secret equals signing
once, for both the OAuth signature and the api signature: the stale
signature parameter is removed before the new one is computed, so the
second signature equals the first and never signs a signature. -/
theorem C3_resign_idempotent (c : FlickrClient) (ts : GoStr) :
    (c.Sign ts).Sign ts = c.Sign ts ∧ (c.ApiSign ts).ApiSign ts = c.ApiSign ts := by
  refine ⟨?_, ?_⟩ <;>
    simp [FlickrClient.Sign, FlickrClient.ApiSign, valuesDel_valuesSet_same, valuesDel_idem]

/-! ## Claims about the token exchange -/

theorem valuesGet_valuesSet_same (v : Values) (k x : GoStr) :
    valuesGet (valuesSet v k x) k = x := by
  unfold valuesGet valuesSet valuesDel
  rw [List.find?_append]
  have h1 : List.find? (fun p => p.1 == k) (List.filter (fun p => !(p.1 == k)) v) = none := by
    rw [List.find?_eq_none]
    intro a ha
    have h2 := (List.mem_filter.mp ha).2
    simp only [Bool.not_eq_true'] at h2
    simp [h2]
  rw [h1]
  simp [List.find?]

/-- The signature Sign stores is the signature of the visibly prepared
client over its signature-free parameter set: reading oauth_signature
back out of a signed client yields getSignature of that client with the
signature parameter deleted. -/
theorem sign_signature_get (c : FlickrClient) (ts : GoStr) :
    valuesGet (c.Sign ts).Args (gs "oauth_signature") =
      FlickrClient.getSignature
        { c.Sign ts with Args := valuesDel (c.Sign ts).Args (gs "oauth_signature") } ts := by
  show valuesGet (valuesSet (valuesDel c.Args (gs "oauth_signature")) (gs "oauth_signature")
      (FlickrClient.getSignature
        { c with Args := valuesDel c.Args (gs "oauth_signature") } ts)) (gs "oauth_signature") = _
  rw [valuesGet_valuesSet_same]
  congr 1
  show _ = FlickrClient.mk c.ApiKey c.ApiSecret c.EndpointUrl c.HTTPVerb
    (valuesDel (valuesSet (valuesDel c.Args (gs "oauth_signature")) (gs "oauth_signature")
      (FlickrClient.getSignature { c with Args := valuesDel c.Args (gs "oauth_signature") } ts))
      (gs "oauth_signature")) c.OAuthToken c.OAuthTokenSecret
  rw [valuesDel_valuesSet_same, valuesDel_idem]

set_option maxHeartbeats 2000000 in
/-- Claim C4: GetRequestToken prepares the client with the request-token
endpoint, verb GET (the verb the client construction provides and the
function leaves untouched), the seeded default parameters, the consumer
key, the out-of-band callback marker, and an OAuth signature computed
with the empty token secret over the signature-free parameter set;
GetAccessToken prepares the access-token endpoint, the seeded defaults,
the verifier, the consumer key and the request token, and computes its
OAuth signature with the request token secret. -/
theorem C4_token_exchange_prep (c : FlickrClient) (rt : RequestToken)
    (verifier nonce ts nonce2 ts2 : GoStr) (hverb : c.HTTPVerb = gs "GET") :
    (GetRequestTokenPrep c nonce ts).EndpointUrl = REQUEST_TOKEN_URL ∧
    (GetRequestTokenPrep c nonce ts).HTTPVerb = gs "GET" ∧
    valuesGet (GetRequestTokenPrep c nonce ts).Args (gs "oauth_version") = gs "1.0" ∧
    valuesGet (GetRequestTokenPrep c nonce ts).Args (gs "oauth_signature_method") = gs "HMAC-SHA1" ∧
    valuesGet (GetRequestTokenPrep c nonce ts).Args (gs "oauth_nonce") = nonce ∧
    valuesGet (GetRequestTokenPrep c nonce ts).Args (gs "oauth_timestamp") = ts ∧
    valuesGet (GetRequestTokenPrep c nonce ts).Args (gs "oauth_consumer_key") = c.ApiKey ∧
    valuesGet (GetRequestTokenPrep c nonce ts).Args (gs "oauth_callback") = gs "oob" ∧
    valuesGet (GetRequestTokenPrep c nonce ts).Args (gs "oauth_signature") =
      FlickrClient.getSignature
        { GetRequestTokenPrep c nonce ts with
            Args := valuesDel (GetRequestTokenPrep c nonce ts).Args (gs "oauth_signature") }
        (gs "") ∧
    (GetAccessTokenPrep c rt verifier nonce2 ts2).EndpointUrl = ACCESS_TOKEN_URL ∧
    valuesGet (GetAccessTokenPrep c rt verifier nonce2 ts2).Args (gs "oauth_version") = gs "1.0" ∧
    valuesGet (GetAccessTokenPrep c rt verifier nonce2 ts2).Args (gs "oauth_signature_method") = gs "HMAC-SHA1" ∧
    valuesGet (GetAccessTokenPrep c rt verifier nonce2 ts2).Args (gs "oauth_nonce") = nonce2 ∧
    valuesGet (GetAccessTokenPrep c rt verifier nonce2 ts2).Args (gs "oauth_timestamp") = ts2 ∧
    valuesGet (GetAccessTokenPrep c rt verifier nonce2 ts2).Args (gs "oauth_verifier") = verifier ∧
    valuesGet (GetAccessTokenPrep c rt verifier nonce2 ts2).Args (gs "oauth_consumer_key") = c.ApiKey ∧
    valuesGet (GetAccessTokenPrep c rt verifier nonce2 ts2).Args (gs "oauth_token") = rt.OauthToken ∧
    valuesGet (GetAccessTokenPrep c rt verifier nonce2 ts2).Args (gs "oauth_signature") =
      FlickrClient.getSignature
        { GetAccessTokenPrep c rt verifier nonce2 ts2 with
            Args := valuesDel (GetAccessTokenPrep c rt verifier nonce2 ts2).Args (gs "oauth_signature") }
        rt.OauthTokenSecret := by
  refine ⟨rfl, hverb, rfl, rfl, rfl, rfl, rfl, rfl, sign_signature_get _ _, rfl,
    rfl, rfl, rfl, rfl, rfl, rfl, rfl, sign_signature_get _ _⟩

theorem C4_witness :
    (NewFlickrClient (gs "kk") (gs "ss")).HTTPVerb = gs "GET" ∧
    ((GetRequestTokenPrep (NewFlickrClient (gs "kk") (gs "ss")) (gs "n1") (gs "111")).EndpointUrl = REQUEST_TOKEN_URL ∧
    (GetRequestTokenPrep (NewFlickrClient (gs "kk") (gs "ss")) (gs "n1") (gs "111")).HTTPVerb = gs "GET" ∧
    valuesGet (GetRequestTokenPrep (NewFlickrClient (gs "kk") (gs "ss")) (gs "n1") (gs "111")).Args (gs "oauth_version") = gs "1.0" ∧
    valuesGet (GetRequestTokenPrep (NewFlickrClient (gs "kk") (gs "ss")) (gs "n1") (gs "111")).Args (gs "oauth_signature_method") = gs "HMAC-SHA1" ∧
    valuesGet (GetRequestTokenPrep (NewFlickrClient (gs "kk") (gs "ss")) (gs "n1") (gs "111")).Args (gs "oauth_nonce") = (gs "n1") ∧
    valuesGet (GetRequestTokenPrep (NewFlickrClient (gs "kk") (gs "ss")) (gs "n1") (gs "111")).Args (gs "oauth_timestamp") = (gs "111") ∧
    valuesGet (GetRequestTokenPrep (NewFlickrClient (gs "kk") (gs "ss")) (gs "n1") (gs "111")).Args (gs "oauth_consumer_key") = (NewFlickrClient (gs "kk") (gs "ss")).ApiKey ∧
    valuesGet (GetRequestTokenPrep (NewFlickrClient (gs "kk") (gs "ss")) (gs "n1") (gs "111")).Args (gs "oauth_callback") = gs "oob" ∧
    valuesGet (GetRequestTokenPrep (NewFlickrClient (gs "kk") (gs "ss")) (gs "n1") (gs "111")).Args (gs "oauth_signature") =
      FlickrClient.getSignature
        { GetRequestTokenPrep (NewFlickrClient (gs "kk") (gs "ss")) (gs "n1") (gs "111") with
            Args := valuesDel (GetRequestTokenPrep (NewFlickrClient (gs "kk") (gs "ss")) (gs "n1") (gs "111")).Args (gs "oauth_signature") }
        (gs "") ∧
    (GetAccessTokenPrep (NewFlickrClient (gs "kk") (gs "ss")) (RequestToken.mk true (gs "T1") (gs "S1") []) (gs "vv") (gs "n2") (gs "222")).EndpointUrl = ACCESS_TOKEN_URL ∧
    valuesGet (GetAccessTokenPrep (NewFlickrClient (gs "kk") (gs "ss")) (RequestToken.mk true (gs "T1") (gs "S1") []) (gs "vv") (gs "n2") (gs "222")).Args (gs "oauth_version") = gs "1.0" ∧
    valuesGet (GetAccessTokenPrep (NewFlickrClient (gs "kk") (gs "ss")) (RequestToken.mk true (gs "T1") (gs "S1") []) (gs "vv") (gs "n2") (gs "222")).Args (gs "oauth_signature_method") = gs "HMAC-SHA1" ∧
    valuesGet (GetAccessTokenPrep (NewFlickrClient (gs "kk") (gs "ss")) (RequestToken.mk true (gs "T1") (gs "S1") []) (gs "vv") (gs "n2") (gs "222")).Args (gs "oauth_nonce") = (gs "n2") ∧
    valuesGet (GetAccessTokenPrep (NewFlickrClient (gs "kk") (gs "ss")) (RequestToken.mk true (gs "T1") (gs "S1") []) (gs "vv") (gs "n2") (gs "222")).Args (gs "oauth_timestamp") = (gs "222") ∧
    valuesGet (GetAccessTokenPrep (NewFlickrClient (gs "kk") (gs "ss")) (RequestToken.mk true (gs "T1") (gs "S1") []) (gs "vv") (gs "n2") (gs "222")).Args (gs "oauth_verifier") = (gs "vv") ∧
    valuesGet (GetAccessTokenPrep (NewFlickrClient (gs "kk") (gs "ss")) (RequestToken.mk true (gs "T1") (gs "S1") []) (gs "vv") (gs "n2") (gs "222")).Args (gs "oauth_consumer_key") = (NewFlickrClient (gs "kk") (gs "ss")).ApiKey ∧
    valuesGet (GetAccessTokenPrep (NewFlickrClient (gs "kk") (gs "ss")) (RequestToken.mk true (gs "T1") (gs "S1") []) (gs "vv") (gs "n2") (gs "222")).Args (gs "oauth_token") = (RequestToken.mk true (gs "T1") (gs "S1") []).OauthToken ∧
    valuesGet (GetAccessTokenPrep (NewFlickrClient (gs "kk") (gs "ss")) (RequestToken.mk true (gs "T1") (gs "S1") []) (gs "vv") (gs "n2") (gs "222")).Args (gs "oauth_signature") =
      FlickrClient.getSignature
        { GetAccessTokenPrep (NewFlickrClient (gs "kk") (gs "ss")) (RequestToken.mk true (gs "T1") (gs "S1") []) (gs "vv") (gs "n2") (gs "222") with
            Args := valuesDel (GetAccessTokenPrep (NewFlickrClient (gs "kk") (gs "ss")) (RequestToken.mk true (gs "T1") (gs "S1") []) (gs "vv") (gs "n2") (gs "222")).Args (gs "oauth_signature") }
        (RequestToken.mk true (gs "T1") (gs "S1") []).OauthTokenSecret) :=
  ⟨rfl, C4_token_exchange_prep _ _ _ _ _ _ _ rfl⟩

/-- Claim C5: whenever the parsed body carries a nonempty oauth_problem,
ParseRequestToken and ParseOAuthToken both return a non-nil error next
to a token whose OAuthProblem field is that value, and the two errors
are distinct identities: code 20 for the request-token step, code 30
for the access-token step. -/
theorem C5_oauth_problem (body : GoStr) (vals : Values)
    (hparse : parseQuery (trimSpace body) = Except.ok vals)
    (hprob : valuesGet vals (gs "oauth_problem") ≠ []) :
    ParseRequestToken body =
      (some { OauthCallbackConfirmed := false, OauthToken := [], OauthTokenSecret := [],
              OAuthProblem := valuesGet vals (gs "oauth_problem") },
        some (GoError.flickr 20)) ∧
    ParseOAuthToken body =
      (some { OAuthToken := [], OAuthTokenSecret := [], UserNsid := [], Username := [],
              Fullname := [], OAuthProblem := valuesGet vals (gs "oauth_problem") },
        some (GoError.flickr 30)) ∧
    GoError.flickr 20 ≠ GoError.flickr 30 := by
  refine ⟨?_, ?_, by decide⟩
  · unfold ParseRequestToken
    rw [hparse]
    simp [hprob]
  · unfold ParseOAuthToken
    rw [hparse]
    simp [hprob]

theorem C5_witness :
    (parseQuery (trimSpace (gs "oauth_problem=permission_denied")) =
        Except.ok [(gs "oauth_problem", gs "permission_denied")] ∧
      valuesGet [(gs "oauth_problem", gs "permission_denied")] (gs "oauth_problem") ≠ []) ∧
    ParseRequestToken (gs "oauth_problem=permission_denied") =
      (some { OauthCallbackConfirmed := false, OauthToken := [], OauthTokenSecret := [],
              OAuthProblem := gs "permission_denied" },
        some (GoError.flickr 20)) ∧
    ParseOAuthToken (gs "oauth_problem=permission_denied") =
      (some { OAuthToken := [], OAuthTokenSecret := [], UserNsid := [], Username := [],
              Fullname := [], OAuthProblem := gs "permission_denied" },
        some (GoError.flickr 30)) ∧
    GoError.flickr 20 ≠ GoError.flickr 30 :=
  ⟨⟨rfl, by decide⟩,
    C5_oauth_problem (gs "oauth_problem=permission_denied")
      [(gs "oauth_problem", gs "permission_denied")] rfl (by decide)⟩

/-- Claim C9: a body without oauth_problem parses to a nil error and a
RequestToken taking oauth_token, oauth_token_secret and the
boolean-parsed oauth_callback_confirmed from the body, the boolean
defaulting to false when the field is missing or unparsable. -/
theorem C9_request_token_success (body : GoStr) (vals : Values)
    (hparse : parseQuery (trimSpace body) = Except.ok vals)
    (hprob : valuesGet vals (gs "oauth_problem") = []) :
    ParseRequestToken body =
      (some { OauthCallbackConfirmed :=
                parseBoolDefaultFalse (valuesGet vals (gs "oauth_callback_confirmed")),
              OauthToken := valuesGet vals (gs "oauth_token"),
              OauthTokenSecret := valuesGet vals (gs "oauth_token_secret"),
              OAuthProblem := [] }, none) := by
  unfold ParseRequestToken
  rw [hparse]
  simp [hprob]

theorem C9_witness :
    (parseQuery (trimSpace (gs "oauth_callback_confirmed=true&oauth_token=T1&oauth_token_secret=S1")) =
        Except.ok [(gs "oauth_callback_confirmed", gs "true"), (gs "oauth_token", gs "T1"),
          (gs "oauth_token_secret", gs "S1")] ∧
      valuesGet [(gs "oauth_callback_confirmed", gs "true"), (gs "oauth_token", gs "T1"),
          (gs "oauth_token_secret", gs "S1")] (gs "oauth_problem") = []) ∧
    ParseRequestToken (gs "oauth_callback_confirmed=true&oauth_token=T1&oauth_token_secret=S1") =
      (some { OauthCallbackConfirmed := true, OauthToken := gs "T1",
              OauthTokenSecret := gs "S1", OAuthProblem := [] }, none) :=
  ⟨⟨rfl, by decide⟩,
    C9_request_token_success
      (gs "oauth_callback_confirmed=true&oauth_token=T1&oauth_token_secret=S1")
      [(gs "oauth_callback_confirmed", gs "true"), (gs "oauth_token", gs "T1"),
        (gs "oauth_token_secret", gs "S1")] rfl (by decide)⟩

/-- Claim C6 counterexample: the curated nonce alphabet has 58
characters, not the 57 the specification states. -/
theorem C6_counterexample : ¬ (nonceLetters.length = 57) := by decide

/-- Claim C6 amended: every nonce is exactly 8 characters drawn from the
fixed 58-character alphanumeric alphabet, which is duplicate-free, needs
no URL escaping, and omits the ambiguous glyphs 0, l, O and I. -/
theorem C6_nonce_amended (samples : Fin 8 → Fin nonceLetters.length) :
    (generateNonce samples).length = 8 ∧
    (∀ b ∈ generateNonce samples, b ∈ nonceLetters) ∧
    nonceLetters.length = 58 ∧
    nonceLetters.Nodup ∧
    (∀ b ∈ nonceLetters,
      (48 ≤ b ∧ b ≤ 57) ∨ (65 ≤ b ∧ b ≤ 90) ∨ (97 ≤ b ∧ b ≤ 122)) ∧
    (∀ b ∈ nonceLetters, queryEscape [b] = [b]) ∧
    48 ∉ nonceLetters ∧ 108 ∉ nonceLetters ∧ 79 ∉ nonceLetters ∧ 73 ∉ nonceLetters := by
  refine ⟨?_, ?_, by decide, by decide, by decide, by decide, by decide, by decide,
    by decide, by decide⟩
  · simp [generateNonce]
  · intro b hb
    unfold generateNonce at hb
    obtain ⟨i, _, rfl⟩ := List.mem_map.mp hb
    exact List.get_mem _ _ _

/-- Claim C7: a parsed response envelope has errors exactly when its
status is the literal fail; the failing envelope with nested code 1 and
message not found reports that code and message. -/
theorem C7_envelope (r : FlickrResponse) :
    (r.HasErrors = true ↔ r.Status = gs "fail") ∧
    FlickrResponse.HasErrors ⟨gs "fail", ⟨1, gs "not found"⟩⟩ = true ∧
    FlickrResponse.ErrorCode ⟨gs "fail", ⟨1, gs "not found"⟩⟩ = 1 ∧
    FlickrResponse.ErrorMsg ⟨gs "fail", ⟨1, gs "not found"⟩⟩ = gs "not found" := by
  refine ⟨?_, by decide, rfl, rfl⟩
  simp [FlickrResponse.HasErrors]

/-- Claim C8: GetAuthorizeUrl is a pure URL constructor over the model
state (the source never touches the HTTP client): it resets the
parameter set to exactly the request token and the hardcoded delete
permission, points the endpoint at the authorize URL, returns a nil
error and a URL embedding oauth_token as a query parameter. -/
theorem C8_authorize_url (c : FlickrClient) (rt : RequestToken) :
    (GetAuthorizeUrl c rt).1.EndpointUrl = AUTHORIZE_URL ∧
    (GetAuthorizeUrl c rt).1.Args =
      [(gs "oauth_token", rt.OauthToken), (gs "perms", gs "delete")] ∧
    (GetAuthorizeUrl c rt).2.2 = none ∧
    (GetAuthorizeUrl c rt).2.1 =
      AUTHORIZE_URL ++ gs "?oauth_token=" ++ queryEscape rt.OauthToken ++ gs "&perms=delete" :=
  ⟨rfl, rfl, rfl, rfl⟩

/-- A groups getInfo response whose throttle carries the given remaining
count and is otherwise empty. -/
def mkGroupResponse (remaining : GoStr) : GroupInfoResponse :=
  { Basic := ⟨[], ⟨0, []⟩⟩,
    Group := { ID := [], Throttle := ⟨[], [], [], remaining⟩,
               Restriction := ⟨[], [], [], [], [], [], [], [], [], [], []⟩ } }

/-- Claim C10: CanAddPhotos holds exactly when the throttle Remaining
attribute parses as a base-10 integer greater than zero; an empty or
unparsable Remaining yields false rather than a failure. -/
theorem C10_can_add_photos (g : GroupInfoResponse) :
    (g.CanAddPhotos = true ↔
      ∃ v : Int, Atoi g.Group.Throttle.Remaining = some v ∧ 0 < v) ∧
    (mkGroupResponse (gs "3")).CanAddPhotos = true ∧
    (mkGroupResponse []).CanAddPhotos = false ∧
    (mkGroupResponse (gs "zero")).CanAddPhotos = false ∧
    (mkGroupResponse (gs "0")).CanAddPhotos = false ∧
    (mkGroupResponse (gs "-4")).CanAddPhotos = false := by
  refine ⟨?_, by decide, by decide, by decide, by decide, by decide⟩
  unfold GroupInfoResponse.CanAddPhotos
  cases h : Atoi g.Group.Throttle.Remaining with
  | none => simp
  | some v =>
    by_cases hv : 0 < v
    · simp [hv]
    · simp [hv]
